import Mathlib

/-!
Verification of the upfly per-file upload pipeline (`src/upfly.js` and the
legacy `webify` module) against its natural-language specification.

Shallow embedding conventions:
* byte chunks are `List Nat` (one `Nat` per byte), streams are `List Chunk`
  in arrival order;
* the event-loop handlers of the Node streams are folded into explicit state
  transition functions (`backupStep`, `adaptiveStep`, `ctrlTransform`);
* the spill threshold `LARGE_FILE_THRESHOLD_BYTES` is abstracted as a `Nat`
  parameter (the source fixes it to `7 * 1024 * 1024`; nothing in the logic
  depends on the value);
* filesystem and network outcomes that the code observes through callbacks
  or rejected promises are environment booleans (`Env`).
-/

namespace Upfly

/-- A byte chunk delivered by a stream `data` event. -/
abbrev Chunk := List Nat

/-- `LARGE_FILE_THRESHOLD_BYTES = 7 * 1024 * 1024` in `src/upfly.js`. -/
def largeFileThresholdBytes : Nat := 7 * 1024 * 1024

/-! ## Backup spill buffer (`createBackup`, src/upfly.js lines 1297-1344)

State carried by the `backupState` object.  `fileContent` is the byte
content of the temp file accumulated by `backupWriteStream` writes. -/

structure BackupState where
  backupBuffer : List Chunk
  backupPath : Option String
  fileContent : List Nat
  backupTotalSize : Nat
  useMemoryBackup : Bool
  deriving Repr, DecidableEq

def initBackupState : BackupState :=
  { backupBuffer := [], backupPath := none, fileContent := [],
    backupTotalSize := 0, useMemoryBackup := true }

/-- One `data` event of `createBackup` (src/upfly.js lines 1298-1330).
`tempPath` stands for the freshly generated unique temp path. -/
def backupStep (threshold : Nat) (tempPath : String) (st : BackupState)
    (chunk : Chunk) : BackupState :=
  let total := st.backupTotalSize + chunk.length
  if st.useMemoryBackup ∧ total > threshold then
    -- spill: flush all buffered chunks, then write the triggering chunk
    { backupBuffer := [],
      backupPath := some tempPath,
      fileContent := st.fileContent ++ st.backupBuffer.flatten ++ chunk,
      backupTotalSize := total,
      useMemoryBackup := false }
  else if st.useMemoryBackup then
    { st with backupBuffer := st.backupBuffer ++ [chunk], backupTotalSize := total }
  else
    { st with fileContent := st.fileContent ++ chunk, backupTotalSize := total }

/-- Feeding a whole stream of chunks to `createBackup`. -/
def backupRun (threshold : Nat) (tempPath : String) (chunks : List Chunk) :
    BackupState :=
  chunks.foldl (backupStep threshold tempPath) initBackupState

/-- Reading the captured backup content back: from the in-memory chunk list
if never spilled, from the temp file otherwise (this is what
`handleMemoryBackupFallback` / `handleDiskBackupFallback` do). -/
def backupReadBack (st : BackupState) : List Nat :=
  if st.useMemoryBackup then st.backupBuffer.flatten else st.fileContent

theorem backupRun_invariant (threshold : Nat) (tempPath : String)
    (chunks : List Chunk) :
    (backupRun threshold tempPath chunks).backupTotalSize = chunks.flatten.length ∧
    backupReadBack (backupRun threshold tempPath chunks) = chunks.flatten ∧
    (backupRun threshold tempPath chunks).useMemoryBackup =
      decide (chunks.flatten.length ≤ threshold) := by
  have key : ∀ (cs : List Chunk) (st : BackupState),
      (st.useMemoryBackup = true → st.fileContent = [] ∧ st.backupTotalSize ≤ threshold) →
      st.backupTotalSize + cs.flatten.length =
        (cs.foldl (backupStep threshold tempPath) st).backupTotalSize ∧
      (st.useMemoryBackup = true →
        (cs.foldl (backupStep threshold tempPath) st).useMemoryBackup =
          decide (st.backupTotalSize + cs.flatten.length ≤ threshold)) ∧
      (st.useMemoryBackup = false →
        (cs.foldl (backupStep threshold tempPath) st).useMemoryBackup = false) ∧
      backupReadBack (cs.foldl (backupStep threshold tempPath) st) =
        backupReadBack st ++ cs.flatten := by
    intro cs
    induction cs with
    | nil =>
      intro st hwf
      refine ⟨by simp, ?_, by simp, by simp⟩
      intro hmem
      obtain ⟨-, hle⟩ := hwf hmem
      simp [hmem, hle]
    | cons c cs ih =>
      intro st hwf
      by_cases hm : st.useMemoryBackup = true
      · obtain ⟨hfc, hle⟩ := hwf hm
        by_cases hspill : st.backupTotalSize + c.length > threshold
        · have hstep : backupStep threshold tempPath st c =
              { backupBuffer := [],
                backupPath := some tempPath,
                fileContent := st.fileContent ++ st.backupBuffer.flatten ++ c,
                backupTotalSize := st.backupTotalSize + c.length,
                useMemoryBackup := false } := by
            simp [backupStep, hm, hspill]
          obtain ⟨ih1, -, ih3, ih4⟩ :=
            ih (backupStep threshold tempPath st c) (by rw [hstep]; intro h; cases h)
          refine ⟨?_, ?_, ?_, ?_⟩
          · rw [List.foldl_cons, ← ih1, hstep]
            simp [List.flatten_cons]
            omega
          · intro _
            rw [List.foldl_cons]
            rw [ih3 (by rw [hstep])]
            have : ¬ (st.backupTotalSize + (c :: cs).flatten.length ≤ threshold) := by
              simp only [List.flatten_cons, List.length_append]
              omega
            simp [this]
            omega
          · intro hfalse; rw [hm] at hfalse; cases hfalse
          · rw [List.foldl_cons, ih4, hstep]
            simp [backupReadBack, hm, hfc, List.flatten_cons]
        · have hstep : backupStep threshold tempPath st c =
              { st with backupBuffer := st.backupBuffer ++ [c],
                        backupTotalSize := st.backupTotalSize + c.length } := by
            simp [backupStep, hm, hspill]
          have hle' : st.backupTotalSize + c.length ≤ threshold := by omega
          obtain ⟨ih1, ih2, -, ih4⟩ :=
            ih (backupStep threshold tempPath st c)
               (by rw [hstep]; intro h; exact ⟨hfc, hle'⟩)
          refine ⟨?_, ?_, ?_, ?_⟩
          · rw [List.foldl_cons, ← ih1, hstep]
            simp [List.flatten_cons]
            omega
          · intro _
            rw [List.foldl_cons]
            rw [ih2 (by rw [hstep]; exact hm)]
            have harg : (backupStep threshold tempPath st c).backupTotalSize +
                cs.flatten.length = st.backupTotalSize + (c :: cs).flatten.length := by
              rw [hstep]
              simp [List.flatten_cons]
              omega
            rw [harg]
          · intro hfalse; rw [hm] at hfalse; cases hfalse
          · rw [List.foldl_cons, ih4, hstep]
            simp [backupReadBack, hm, List.flatten_cons]
      · have hm' : st.useMemoryBackup = false := by
          cases h : st.useMemoryBackup
          · rfl
          · exact absurd h hm
        have hstep : backupStep threshold tempPath st c =
            { st with fileContent := st.fileContent ++ c,
                      backupTotalSize := st.backupTotalSize + c.length } := by
          simp [backupStep, hm']
        obtain ⟨ih1, -, ih3, ih4⟩ :=
          ih (backupStep threshold tempPath st c)
             (by rw [hstep]; intro h; rw [hm'] at h; cases h)
        refine ⟨?_, ?_, ?_, ?_⟩
        · rw [List.foldl_cons, ← ih1, hstep]
          simp [List.flatten_cons]
          omega
        · intro htrue; rw [hm'] at htrue; cases htrue
        · intro _
          rw [List.foldl_cons]
          exact ih3 (by rw [hstep]; exact hm')
        · rw [List.foldl_cons, ih4, hstep]
          simp [backupReadBack, hm', List.flatten_cons]
  have h0 := key chunks initBackupState (by intro h; exact ⟨rfl, by simp [initBackupState]⟩)
  refine ⟨?_, ?_, ?_⟩
  · have := h0.1
    simpa [backupRun, initBackupState] using this.symm
  · have := h0.2.2.2
    simpa [backupRun, initBackupState, backupReadBack] using this
  · have := h0.2.1 (by rfl)
    simpa [backupRun, initBackupState] using this

/-! ## Adaptive storage spill buffer (`createAdaptiveStorage`, legacy webify
module, src/unnamed/part_003 lines 13-82)

`Buffer.concat(chunks, size)` is modelled byte-exactly: the result holds the
first `size` bytes of the concatenation, zero-filled if the concatenation is
shorter. -/

def bufferConcat (cs : List Chunk) (n : Nat) : List Nat :=
  cs.flatten.take n ++ List.replicate (n - cs.flatten.length) 0

theorem bufferConcat_flatten_length (cs : List Chunk) :
    bufferConcat cs cs.flatten.length = cs.flatten := by
  simp [bufferConcat]

theorem bufferConcat_sum (cs : List Chunk) :
    bufferConcat cs (cs.map List.length).sum = cs.flatten := by
  have h : (cs.map List.length).sum = cs.flatten.length := by simp
  rw [h]
  exact bufferConcat_flatten_length cs

/-- State of one `_handleFile` call of the adaptive storage engine.
Note the source's `spillToDisk` flushes the buffered `chunks` to the write
stream but never empties the `chunks` array; the model keeps that. -/
structure AdaptiveState where
  chunks : List Chunk
  size : Nat
  spilled : Bool
  tmpPath : Option String
  fileContent : List Nat
  deriving Repr, DecidableEq

def initAdaptiveState : AdaptiveState :=
  { chunks := [], size := 0, spilled := false, tmpPath := none, fileContent := [] }

/-- One `data` event of the adaptive storage engine
(src/unnamed/part_003 lines 39-47, with `spillToDisk` of lines 27-37). -/
def adaptiveStep (threshold : Nat) (tmpPath : String) (st : AdaptiveState)
    (chunk : Chunk) : AdaptiveState :=
  let size' := st.size + chunk.length
  if st.spilled = false ∧ size' > threshold then
    { chunks := st.chunks, size := size', spilled := true,
      tmpPath := some tmpPath,
      fileContent := st.chunks.flatten ++ chunk }
  else if st.spilled then
    { st with size := size', fileContent := st.fileContent ++ chunk }
  else
    { st with size := size', chunks := st.chunks ++ [chunk] }

def adaptiveRun (threshold : Nat) (tmpPath : String) (chunks : List Chunk) :
    AdaptiveState :=
  chunks.foldl (adaptiveStep threshold tmpPath) initAdaptiveState

/-- Content handed to the callback at `end`: the temp file content when
spilled, `Buffer.concat(chunks, size)` otherwise
(src/unnamed/part_003 lines 57-72). -/
def adaptiveReadBack (st : AdaptiveState) : List Nat :=
  if st.spilled then st.fileContent else bufferConcat st.chunks st.size

theorem adaptiveRun_invariant (threshold : Nat) (tmpPath : String)
    (chunks : List Chunk) :
    (adaptiveRun threshold tmpPath chunks).size = chunks.flatten.length ∧
    adaptiveReadBack (adaptiveRun threshold tmpPath chunks) = chunks.flatten ∧
    (adaptiveRun threshold tmpPath chunks).spilled =
      decide (threshold < chunks.flatten.length) := by
  have key : ∀ (cs : List Chunk) (st : AdaptiveState),
      (st.spilled = false →
        st.fileContent = [] ∧ st.size = st.chunks.flatten.length ∧ st.size ≤ threshold) →
      st.size + cs.flatten.length =
        (cs.foldl (adaptiveStep threshold tmpPath) st).size ∧
      (st.spilled = false →
        (cs.foldl (adaptiveStep threshold tmpPath) st).spilled =
          decide (threshold < st.size + cs.flatten.length)) ∧
      (st.spilled = true →
        (cs.foldl (adaptiveStep threshold tmpPath) st).spilled = true ∧
        (cs.foldl (adaptiveStep threshold tmpPath) st).fileContent =
          st.fileContent ++ cs.flatten) ∧
      adaptiveReadBack (cs.foldl (adaptiveStep threshold tmpPath) st) =
        adaptiveReadBack st ++ cs.flatten := by
    intro cs
    induction cs with
    | nil =>
      intro st hwf
      refine ⟨by simp, ?_, by simp, by simp⟩
      intro hns
      obtain ⟨-, -, hle⟩ := hwf hns
      simp [hns]
      omega
    | cons c cs ih =>
      intro st hwf
      by_cases hsp : st.spilled = true
      · have hstep : adaptiveStep threshold tmpPath st c =
            { st with size := st.size + c.length,
                      fileContent := st.fileContent ++ c } := by
          simp [adaptiveStep, hsp]
        obtain ⟨ih1, -, ih3, ih4⟩ :=
          ih (adaptiveStep threshold tmpPath st c)
             (by rw [hstep]; intro h; rw [hsp] at h; cases h)
        have hsp' := ih3 (by rw [hstep]; exact hsp)
        refine ⟨?_, ?_, ?_, ?_⟩
        · rw [List.foldl_cons, ← ih1, hstep]
          simp [List.flatten_cons]
          omega
        · intro hns; rw [hsp] at hns; cases hns
        · intro _
          rw [List.foldl_cons]
          refine ⟨hsp'.1, ?_⟩
          rw [hsp'.2, hstep]
          simp [List.flatten_cons]
        · rw [List.foldl_cons, ih4, hstep]
          simp [adaptiveReadBack, hsp, List.flatten_cons]
      · have hns : st.spilled = false := by
          cases h : st.spilled
          · rfl
          · exact absurd h hsp
        obtain ⟨hfc, hsz, hle⟩ := hwf hns
        by_cases hcross : st.size + c.length > threshold
        · have hstep : adaptiveStep threshold tmpPath st c =
              { chunks := st.chunks, size := st.size + c.length, spilled := true,
                tmpPath := some tmpPath,
                fileContent := st.chunks.flatten ++ c } := by
            simp [adaptiveStep, hns, hcross]
          obtain ⟨ih1, -, ih3, ih4⟩ :=
            ih (adaptiveStep threshold tmpPath st c)
               (by rw [hstep]; intro h; cases h)
          have hsp' := ih3 (by rw [hstep])
          refine ⟨?_, ?_, ?_, ?_⟩
          · rw [List.foldl_cons, ← ih1, hstep]
            simp [List.flatten_cons]
            omega
          · intro _
            rw [List.foldl_cons]
            rw [hsp'.1, eq_comm, decide_eq_true_eq]
            simp only [List.flatten_cons, List.length_append]
            omega
          · intro htrue; rw [hns] at htrue; cases htrue
          · rw [List.foldl_cons, ih4, hstep]
            simp [adaptiveReadBack, hns, hsz, List.flatten_cons,
              bufferConcat_sum]
        · have hstep : adaptiveStep threshold tmpPath st c =
              { st with size := st.size + c.length,
                        chunks := st.chunks ++ [c] } := by
            simp [adaptiveStep, hns, hcross]
          have hle' : st.size + c.length ≤ threshold := by omega
          obtain ⟨ih1, ih2, -, ih4⟩ :=
            ih (adaptiveStep threshold tmpPath st c)
               (by rw [hstep]; intro h
                   refine ⟨hfc, ?_, hle'⟩
                   simp [List.flatten_append, hsz])
          refine ⟨?_, ?_, ?_, ?_⟩
          · rw [List.foldl_cons, ← ih1, hstep]
            simp [List.flatten_cons]
            omega
          · intro _
            rw [List.foldl_cons]
            rw [ih2 (by rw [hstep]; exact hns)]
            have harg : (adaptiveStep threshold tmpPath st c).size +
                cs.flatten.length = st.size + (c :: cs).flatten.length := by
              rw [hstep]
              simp [List.flatten_cons]
              omega
            rw [harg]
          · intro htrue; rw [hns] at htrue; cases htrue
          · rw [List.foldl_cons, ih4, hstep]
            simp only [adaptiveReadBack, hns, Bool.false_eq_true, if_false,
              List.flatten_cons, hsz]
            have hb : bufferConcat (st.chunks ++ [c])
                ((List.map List.length st.chunks).sum + c.length) =
                st.chunks.flatten ++ c := by
              have := bufferConcat_sum (st.chunks ++ [c])
              simpa [List.map_append, List.sum_append, List.flatten_append]
                using this
            have hs : bufferConcat st.chunks (List.map List.length st.chunks).sum =
                st.chunks.flatten := bufferConcat_sum st.chunks
            simp only [List.length_flatten]
            rw [hb, hs, List.append_assoc]
  have h0 := key chunks initAdaptiveState (by intro h; exact ⟨rfl, rfl, by simp [initAdaptiveState]⟩)
  refine ⟨?_, ?_, ?_⟩
  · have := h0.1
    simpa [adaptiveRun, initAdaptiveState] using this.symm
  · have := h0.2.2.2
    simpa [adaptiveRun, initAdaptiveState, adaptiveReadBack, bufferConcat] using this
  · have := h0.2.1 (by rfl)
    simpa [adaptiveRun, initAdaptiveState] using this

/-- **C4**: for every sequence of non-empty chunks fed to the backup/spill
buffers whose total size crosses the spill threshold, reading the complete
content back — from the temp disk file, since the buffer has spilled —
yields exactly the concatenation of the input chunks in original order:
all chunks buffered before the spill point are flushed to the temp file
before the triggering chunk, so no bytes are lost, duplicated or
reordered.  Proved for both spill buffers of the repository:
`createBackup` (src/upfly.js) and `createAdaptiveStorage`
(src/unnamed/part_003). -/
theorem spill_buffer_readback_exact (threshold : Nat) (tempPath tmpPath : String)
    (chunks : List Chunk)
    (hne : ∀ c ∈ chunks, c ≠ ([] : Chunk))
    (hcross : threshold < chunks.flatten.length) :
    backupReadBack (backupRun threshold tempPath chunks) = chunks.flatten ∧
    (backupRun threshold tempPath chunks).useMemoryBackup = false ∧
    (backupRun threshold tempPath chunks).fileContent = chunks.flatten ∧
    adaptiveReadBack (adaptiveRun threshold tmpPath chunks) = chunks.flatten ∧
    (adaptiveRun threshold tmpPath chunks).spilled = true ∧
    (adaptiveRun threshold tmpPath chunks).fileContent = chunks.flatten := by
  obtain ⟨b1, b2, b3⟩ := backupRun_invariant threshold tempPath chunks
  obtain ⟨a1, a2, a3⟩ := adaptiveRun_invariant threshold tmpPath chunks
  have hbm : (backupRun threshold tempPath chunks).useMemoryBackup = false := by
    rw [b3, decide_eq_false_iff_not]
    omega
  have has : (adaptiveRun threshold tmpPath chunks).spilled = true := by
    rw [a3, decide_eq_true_eq]
    exact hcross
  refine ⟨b2, hbm, ?_, a2, has, ?_⟩
  · have hb := b2
    simp only [backupReadBack, hbm, Bool.false_eq_true, if_false] at hb
    exact hb
  · have ha := a2
    simp only [adaptiveReadBack, has, if_true] at ha
    exact ha

/-- Witness for `spill_buffer_readback_exact`: two 2-byte chunks crossing a
2-byte threshold. -/
theorem spill_buffer_readback_exact_witness :
    backupReadBack (backupRun 2 "b" [[1, 2], [3, 4]]) = [1, 2, 3, 4] ∧
    (adaptiveRun 2 "a" [[1, 2], [3, 4]]).spilled = true := by
  have h := spill_buffer_readback_exact 2 "b" "a" [[1, 2], [3, 4]]
    (by decide) (by decide)
  exact ⟨h.1, h.2.2.2.2.1⟩

/-! ## Temp-file registry event traces (claim C5)

`createBackup` (src/upfly.js lines 1301-1321) on spilling performs, in
order: generate the temp path, add it to `tempFilesPathRegistry`, open the
write stream, flush the buffered chunks, write the triggering chunk.
`cleanupTempFile` (src/upfly.js lines 1717-1728) unlinks the file and then
deletes the path from the registry.  The legacy adaptive storage engine
(`spillToDisk`, src/unnamed/part_003 lines 27-37) opens its temp file and
writes to it without ever touching the registry. -/

inductive TmpEvent where
  | register : TmpEvent
  | openFile : TmpEvent
  | write : Chunk → TmpEvent
  | unlink : TmpEvent
  | unregister : TmpEvent
  deriving Repr, DecidableEq

/-- Registry/file events emitted by one `data` event of `createBackup`. -/
def backupStepEvents (threshold : Nat) (st : BackupState) (chunk : Chunk) :
    List TmpEvent :=
  if st.useMemoryBackup ∧ st.backupTotalSize + chunk.length > threshold then
    [TmpEvent.register, TmpEvent.openFile] ++
      st.backupBuffer.map TmpEvent.write ++ [TmpEvent.write chunk]
  else if st.useMemoryBackup then []
  else [TmpEvent.write chunk]

def backupEvents (threshold : Nat) (chunks : List Chunk) : List TmpEvent :=
  (chunks.foldl
    (fun acc c =>
      (backupStep threshold "tmp" acc.1 c, acc.2 ++ backupStepEvents threshold acc.1 c))
    (initBackupState, ([] : List TmpEvent))).2

/-- Registry/file events emitted by one `data` event of the adaptive
storage engine (`spillToDisk` never registers the temp path). -/
def adaptiveStepEvents (threshold : Nat) (st : AdaptiveState) (chunk : Chunk) :
    List TmpEvent :=
  if st.spilled = false ∧ st.size + chunk.length > threshold then
    [TmpEvent.openFile] ++ st.chunks.map TmpEvent.write ++ [TmpEvent.write chunk]
  else if st.spilled then [TmpEvent.write chunk]
  else []

def adaptiveEvents (threshold : Nat) (chunks : List Chunk) : List TmpEvent :=
  (chunks.foldl
    (fun acc c =>
      (adaptiveStep threshold "tmp" acc.1 c, acc.2 ++ adaptiveStepEvents threshold acc.1 c))
    (initAdaptiveState, ([] : List TmpEvent))).2

/-- `cleanupTempFile` on an existing path: unlink, then remove from the
registry; on a missing path, nothing. -/
def cleanupTempFileEvents (fileExists : Bool) : List TmpEvent :=
  if fileExists then [TmpEvent.unlink, TmpEvent.unregister] else []

/-- Left-to-right scan: every `write` must be preceded by a `register`. -/
def writesSafeAux : Bool → List TmpEvent → Bool
  | _, [] => true
  | _, TmpEvent.register :: rest => writesSafeAux true rest
  | reg, TmpEvent.write _ :: rest => reg && writesSafeAux reg rest
  | reg, TmpEvent.openFile :: rest => writesSafeAux reg rest
  | reg, TmpEvent.unlink :: rest => writesSafeAux reg rest
  | reg, TmpEvent.unregister :: rest => writesSafeAux reg rest

def registeredBeforeWrites (evs : List TmpEvent) : Bool :=
  writesSafeAux false evs

theorem writesSafeAux_append (a b : List TmpEvent) (r : Bool) :
    writesSafeAux r (a ++ b) =
      (writesSafeAux r a && writesSafeAux (r || a.contains TmpEvent.register) b) := by
  induction a generalizing r with
  | nil => simp [writesSafeAux]
  | cons e rest ih =>
    cases e <;>
      simp [writesSafeAux, ih, List.contains_cons, Bool.and_assoc] <;>
      cases r <;> simp

theorem writesSafeAux_true (l : List TmpEvent) : writesSafeAux true l = true := by
  induction l with
  | nil => rfl
  | cons e rest ih => cases e <;> simp [writesSafeAux, ih]

theorem backupEvents_safe (threshold : Nat) (chunks : List Chunk) :
    registeredBeforeWrites (backupEvents threshold chunks) = true := by
  have key : ∀ (cs : List Chunk) (st : BackupState) (acc : List TmpEvent),
      writesSafeAux false acc = true →
      (st.useMemoryBackup = false → acc.contains TmpEvent.register = true) →
      writesSafeAux false
        ((cs.foldl
          (fun acc c =>
            (backupStep threshold "tmp" acc.1 c,
             acc.2 ++ backupStepEvents threshold acc.1 c))
          (st, acc)).2) = true := by
    intro cs
    induction cs with
    | nil => intro st acc hsafe _; exact hsafe
    | cons c cs ih =>
      intro st acc hsafe hreg
      rw [List.foldl_cons]
      by_cases hm : st.useMemoryBackup = true
      · by_cases hspill : st.backupTotalSize + c.length > threshold
        · have hev : backupStepEvents threshold st c =
              [TmpEvent.register, TmpEvent.openFile] ++
                st.backupBuffer.map TmpEvent.write ++ [TmpEvent.write c] := by
            simp [backupStepEvents, hm, hspill]
          apply ih
          · rw [hev, writesSafeAux_append, hsafe]
            simp [writesSafeAux, writesSafeAux_true]
          · intro _
            rw [hev]
            have hmem : TmpEvent.register ∈
                acc ++ ([TmpEvent.register, TmpEvent.openFile] ++
                  st.backupBuffer.map TmpEvent.write ++ [TmpEvent.write c]) := by
              simp
            simpa using hmem
        · have hev : backupStepEvents threshold st c = [] := by
            simp [backupStepEvents, hm, hspill]
          have hst : (backupStep threshold "tmp" st c).useMemoryBackup = true := by
            simp [backupStep, hm, hspill]
          apply ih
          · rw [hev, List.append_nil]; exact hsafe
          · intro hfalse; rw [hst] at hfalse; cases hfalse
      · have hm' : st.useMemoryBackup = false := by
          cases h : st.useMemoryBackup
          · rfl
          · exact absurd h hm
        have hev : backupStepEvents threshold st c = [TmpEvent.write c] := by
          simp [backupStepEvents, hm']
        have hst : (backupStep threshold "tmp" st c).useMemoryBackup = false := by
          simp [backupStep, hm']
        have hmem : TmpEvent.register ∈ acc := by simpa using hreg hm'
        apply ih
        · rw [hev, writesSafeAux_append, hsafe]
          simp [writesSafeAux, hmem]
        · intro _
          rw [hev]
          simp [List.mem_append, hmem]
  exact key chunks initBackupState [] rfl (by intro h; cases h)

/-- **C5 (corrected)**: the backup temp files created by `createBackup`
(src/upfly.js) are added to the process-wide `tempFilesPathRegistry` before
any byte is written to them, and `cleanupTempFile` removes the path from
the registry only after unlinking the file.  The claim as stated fails for
the legacy adaptive storage engine (see the counterexample): its spill
temp files are never registered at all. -/
theorem temp_registry_registration_order (threshold : Nat) (chunks : List Chunk) :
    registeredBeforeWrites (backupEvents threshold chunks) = true ∧
    cleanupTempFileEvents true = [TmpEvent.unlink, TmpEvent.unregister] ∧
    cleanupTempFileEvents false = [] :=
  ⟨backupEvents_safe threshold chunks, rfl, rfl⟩

/-- **C5 counterexample**: the legacy adaptive storage engine
(`spillToDisk`, src/unnamed/part_003) writes bytes to its spill temp file
while the file is never present in the temp-file registry: feeding a single
3-byte chunk with a 2-byte threshold produces a `write` event with no
`register` event anywhere in the trace. -/
theorem temp_registry_unregistered_write_cex :
    registeredBeforeWrites (adaptiveEvents 2 [[1, 2, 3]]) = false ∧
    TmpEvent.write [1, 2, 3] ∈ adaptiveEvents 2 [[1, 2, 3]] ∧
    TmpEvent.register ∉ adaptiveEvents 2 [[1, 2, 3]] := by
  decide

/-! ## Cloud upload with one-shot backup retry (`uploadToCloud`,
src/unnamed/part_004 lines 132-175)

The adapter's network outcomes are abstracted: `primary` is the result of
the first `adapter.upload(stream, metadata)` call and `retryOutcome` the
result of the (at most one) `adapter.upload(retryStream, metadata)` call.
The second component of the return value records which fresh stream the
retry used (`none` = no retry was attempted). -/

structure CloudResult where
  cloudUrl : String
  cloudSize : Nat
  deriving Repr, DecidableEq

structure BackupData where
  buffer : Option (List Nat)
  path : Option String
  deriving Repr, DecidableEq

/-- JS truthiness of an optional string (empty string is falsy). -/
def jsTruthyStr : Option String → Bool
  | none => false
  | some s => s ≠ ""

/-- `backup && (backup.buffer || backup.path)` — a Buffer object is always
truthy, a string is truthy iff non-empty. -/
def backupHasContent (b : BackupData) : Bool :=
  b.buffer.isSome || jsTruthyStr b.path

inductive RetrySource where
  | fileStream : String → RetrySource
  | bufferStream : List Nat → RetrySource
  deriving Repr, DecidableEq

/-- `backup.path ? fs.createReadStream(backup.path) : Readable.from(backup.buffer)` -/
def retryStreamOf (b : BackupData) : RetrySource :=
  match b.path with
  | some p =>
    if p ≠ "" then RetrySource.fileStream p
    else RetrySource.bufferStream (b.buffer.getD [])
  | none => RetrySource.bufferStream (b.buffer.getD [])

def uploadToCloud (primary : Except String CloudResult)
    (backup : Option BackupData) (retryOutcome : Except String CloudResult) :
    Except String CloudResult × Option RetrySource :=
  match primary with
  | Except.ok r => (Except.ok r, none)
  | Except.error e =>
    match backup with
    | some b =>
      if backupHasContent b then (retryOutcome, some (retryStreamOf b))
      else (Except.error e, none)
    | none => (Except.error e, none)

/-- **C6**: when the first remote upload attempt fails, `uploadToCloud`
performs exactly one retry from a fresh stream over the backup content
(file stream if a temp path exists, buffer stream otherwise), returning
the retry's result on success and rethrowing the retry's error on failure;
with no backup content, the original error is rethrown and no retry is
ever attempted.  A successful first attempt never retries. -/
theorem uploadToCloud_retry_spec (e : String) (backup : Option BackupData)
    (retryOutcome : Except String CloudResult) :
    (∀ b, backup = some b → backupHasContent b = true →
      (uploadToCloud (Except.error e) backup retryOutcome).1 = retryOutcome ∧
      (uploadToCloud (Except.error e) backup retryOutcome).2 =
        some (retryStreamOf b) ∧
      (∀ p, b.path = some p → p ≠ "" →
        retryStreamOf b = RetrySource.fileStream p) ∧
      (∀ buf, b.buffer = some buf → jsTruthyStr b.path = false →
        retryStreamOf b = RetrySource.bufferStream buf)) ∧
    ((∀ b, backup = some b → backupHasContent b = false) →
      (uploadToCloud (Except.error e) backup retryOutcome).1 = Except.error e ∧
      (uploadToCloud (Except.error e) backup retryOutcome).2 = none) ∧
    (∀ r, uploadToCloud (Except.ok r) backup retryOutcome = (Except.ok r, none)) := by
  refine ⟨?_, ?_, ?_⟩
  · rintro b rfl hc
    refine ⟨by simp [uploadToCloud, hc], by simp [uploadToCloud, hc], ?_, ?_⟩
    · rintro p hp hne
      simp [retryStreamOf, hp, hne]
    · rintro buf hbuf hpath
      cases hb : b.path with
      | none => simp [retryStreamOf, hb, hbuf]
      | some p =>
        have : ¬ p ≠ "" := by
          intro hpe
          rw [jsTruthyStr.eq_def, hb] at hpath
          simp [hpe] at hpath
        simp [retryStreamOf, hb, this, hbuf]
  · intro hno
    cases backup with
    | none => simp [uploadToCloud]
    | some b =>
      have := hno b rfl
      simp [uploadToCloud, this]
  · intro r
    simp [uploadToCloud]

/-- Witness for `uploadToCloud_retry_spec`: a failed first attempt with a
spilled backup file retries from a file stream and returns the retry's
result; with no backup, the original error is rethrown. -/
theorem uploadToCloud_retry_spec_witness :
    (uploadToCloud (Except.error "boom") (some ⟨none, some "b.tmp"⟩)
        (Except.ok ⟨"u", 3⟩)).1 = Except.ok ⟨"u", 3⟩ ∧
    (uploadToCloud (Except.error "boom") (some ⟨none, some "b.tmp"⟩)
        (Except.ok ⟨"u", 3⟩)).2 = some (RetrySource.fileStream "b.tmp") ∧
    (uploadToCloud (Except.error "boom") none (Except.ok ⟨"u", 3⟩)).1 =
      Except.error "boom" := by
  have h1 := (uploadToCloud_retry_spec "boom" (some ⟨none, some "b.tmp"⟩)
    (Except.ok ⟨"u", 3⟩)).1 ⟨none, some "b.tmp"⟩ rfl (by decide)
  have h2 := (uploadToCloud_retry_spec "boom" none (Except.ok ⟨"u", 3⟩)).2.1
    (by rintro b h; cases h)
  refine ⟨h1.1, ?_, h2.1⟩
  rw [h1.2.1]
  have := h1.2.2.1 "b.tmp" rfl (by decide)
  rw [this]

/-- Model of JS `String.prototype.startsWith` (kernel-reducible). -/
def strStartsWith (s p : String) : Bool := p.toList.isPrefixOf s.toList

/-! ## Highway controller transform routing (`createHighwayController`,
src/upfly.js lines 573-673)

The `transform` callback routes each incoming chunk to the converter, the
disk stream, the cloud upload stream, or the in-memory accumulator,
depending on the destination and `shouldConvert`; the model records the
chunks sent to each destination. -/

structure CtrlCtx where
  isCloudUpload : Bool
  outputDisk : Bool
  shouldConvert : Bool
  deriving Repr, DecidableEq

structure CtrlState where
  originalFileSize : Nat
  memoryBuffer : List Chunk
  totalSize : Nat
  converterIn : List Chunk
  diskIn : List Chunk
  cloudIn : List Chunk
  deriving Repr, DecidableEq

def initCtrlState : CtrlState :=
  { originalFileSize := 0, memoryBuffer := [], totalSize := 0,
    converterIn := [], diskIn := [], cloudIn := [] }

/-- One `transform(chunk, enc, cb)` call (src/upfly.js lines 576-603). -/
def ctrlTransform (ctx : CtrlCtx) (st : CtrlState) (chunk : Chunk) : CtrlState :=
  let st := { st with originalFileSize := st.originalFileSize + chunk.length }
  if ctx.isCloudUpload then
    if ctx.shouldConvert then
      { st with converterIn := st.converterIn ++ [chunk] }
    else
      { st with cloudIn := st.cloudIn ++ [chunk] }
  else if ctx.outputDisk then
    if ctx.shouldConvert then
      { st with converterIn := st.converterIn ++ [chunk] }
    else
      { st with diskIn := st.diskIn ++ [chunk] }
  else
    if ctx.shouldConvert then
      { st with converterIn := st.converterIn ++ [chunk] }
    else
      { st with memoryBuffer := st.memoryBuffer ++ [chunk],
                totalSize := st.totalSize + chunk.length }

def ctrlRun (ctx : CtrlCtx) (chunks : List Chunk) : CtrlState :=
  chunks.foldl (ctrlTransform ctx) initCtrlState

/-- The memory pass-through branch of `flush` (src/upfly.js lines 660-665):
`buffer = Buffer.concat(memoryBuffer, totalSize)`, `size = totalSize`. -/
def memPassThroughFlush (st : CtrlState) : List Nat × Nat :=
  (bufferConcat st.memoryBuffer st.totalSize, st.totalSize)

theorem ctrlRun_memory_passthrough (ctx : CtrlCtx)
    (hc : ctx.isCloudUpload = false) (hd : ctx.outputDisk = false)
    (hs : ctx.shouldConvert = false) (chunks : List Chunk) :
    (ctrlRun ctx chunks).memoryBuffer = chunks ∧
    (ctrlRun ctx chunks).totalSize = chunks.flatten.length ∧
    (ctrlRun ctx chunks).originalFileSize = chunks.flatten.length := by
  have key : ∀ (cs : List Chunk) (st : CtrlState),
      (cs.foldl (ctrlTransform ctx) st).memoryBuffer = st.memoryBuffer ++ cs ∧
      (cs.foldl (ctrlTransform ctx) st).totalSize =
        st.totalSize + cs.flatten.length ∧
      (cs.foldl (ctrlTransform ctx) st).originalFileSize =
        st.originalFileSize + cs.flatten.length := by
    intro cs
    induction cs with
    | nil => intro st; simp
    | cons c cs ih =>
      intro st
      have hstep : ctrlTransform ctx st c =
          { st with originalFileSize := st.originalFileSize + c.length,
                    memoryBuffer := st.memoryBuffer ++ [c],
                    totalSize := st.totalSize + c.length } := by
        simp [ctrlTransform, hc, hd, hs]
      obtain ⟨ih1, ih2, ih3⟩ := ih (ctrlTransform ctx st c)
      rw [List.foldl_cons]
      refine ⟨?_, ?_, ?_⟩
      · rw [ih1, hstep]
        simp
      · rw [ih2, hstep]
        simp [List.flatten_cons]
        omega
      · rw [ih3, hstep]
        simp [List.flatten_cons]
        omega
  have h0 := key chunks initCtrlState
  simpa [ctrlRun, initCtrlState] using h0

/-- **C8**: for every non-image file delivered to the memory destination
(pass-through), and for every way the source splits the input into chunks,
the flushed result's buffer is the exact byte-for-byte concatenation of
the input chunks and its size is the total input byte count. -/
theorem passthrough_memory_byte_exact (mimetype : String) (keepOriginal : Bool)
    (chunks : List Chunk) (himg : strStartsWith mimetype "image" = false) :
    (memPassThroughFlush (ctrlRun
        { isCloudUpload := false, outputDisk := false,
          shouldConvert := strStartsWith mimetype "image" && !keepOriginal }
        chunks)).1 = chunks.flatten ∧
    (memPassThroughFlush (ctrlRun
        { isCloudUpload := false, outputDisk := false,
          shouldConvert := strStartsWith mimetype "image" && !keepOriginal }
        chunks)).2 = chunks.flatten.length := by
  have hs : (strStartsWith mimetype "image" && !keepOriginal) = false := by
    rw [himg]
    simp
  obtain ⟨h1, h2, h3⟩ := ctrlRun_memory_passthrough
    { isCloudUpload := false, outputDisk := false,
      shouldConvert := strStartsWith mimetype "image" && !keepOriginal }
    rfl rfl hs chunks
  constructor
  · simp only [memPassThroughFlush]
    rw [h1, h2]
    exact bufferConcat_flatten_length chunks
  · simp only [memPassThroughFlush]
    rw [h2]

/-- Witness for `passthrough_memory_byte_exact`: a PDF split into two
chunks is delivered byte-exactly. -/
theorem passthrough_memory_byte_exact_witness :
    (memPassThroughFlush (ctrlRun
        { isCloudUpload := false, outputDisk := false,
          shouldConvert := strStartsWith "application/pdf" "image" && !false }
        [[10, 20], [30]])).1 = [10, 20, 30] :=
  (passthrough_memory_byte_exact "application/pdf" false [[10, 20], [30]]
    (by decide)).1

/-! ## Field-config validation (`upflyUpload`, src/upfly.js lines 319-353)

Only the value-level checks are representable in the typed model; the
`typeof` guards on `outputDir` / `format` / `keepOriginal` cannot fail on
well-typed fields and are omitted. -/

structure FieldCfg where
  cloudStorage : Bool
  output : Option String
  outputDir : Option String
  quality : Option Int
  format : Option String
  keepOriginal : Bool
  deriving Repr, DecidableEq

/-- Error text thrown for a cloud field whose `output` is not `'memory'`
(src/upfly.js lines 326-329); `undefined` interpolates as `"undefined"`. -/
def cloudOutputErrMsg (fieldname : String) (output : Option String) : String :=
  "Field '" ++ fieldname ++ "' has cloudStorage enabled but output is set to '" ++
    output.getD "undefined" ++
    "'. Cloud storage requires output: 'memory' (or omit output option)."

def invalidOutputErrMsg (fieldname : String) (output : Option String) : String :=
  "Field '" ++ fieldname ++ "' has invalid output value '" ++
    output.getD "undefined" ++ "'. Allowed: 'disk', 'memory'."

def qualityErrMsg (fieldname : String) : String :=
  "Field '" ++ fieldname ++ "' quality must be a number between 1 and 100."

/-- The check `config.quality !== undefined && (quality < 1 || quality > 100)`. -/
def qualityInvalid : Option Int → Bool
  | some q => decide (q < 1 ∨ q > 100)
  | none => false

/-- Per-field validation sequence of `upflyUpload`
(src/upfly.js lines 319-353). -/
def validateFieldConfig (fieldname : String) (cfg : FieldCfg) :
    Except String Unit :=
  if cfg.cloudStorage ∧ cfg.output ≠ some "memory" then
    Except.error (cloudOutputErrMsg fieldname cfg.output)
  else if jsTruthyStr cfg.output ∧ cfg.output ≠ some "disk" ∧
      cfg.output ≠ some "memory" then
    Except.error (invalidOutputErrMsg fieldname cfg.output)
  else if qualityInvalid cfg.quality then
    Except.error (qualityErrMsg fieldname)
  else
    Except.ok ()

/-- **C9**: a field with `cloudStorage: true` makes `upflyUpload` throw at
middleware-construction time unless `output` is exactly the string
`'memory'`; in particular an omitted `output` also throws, while the
thrown message itself claims the option may be omitted
(`"... requires output: 'memory' (or omit output option)."`). -/
theorem cloud_requires_memory_output (fieldname : String) (cfg : FieldCfg)
    (hc : cfg.cloudStorage = true) :
    (cfg.output ≠ some "memory" →
      validateFieldConfig fieldname cfg =
        Except.error (cloudOutputErrMsg fieldname cfg.output)) ∧
    (cfg.output = some "memory" →
      (match cfg.quality with
       | some q => 1 ≤ q ∧ q ≤ 100
       | none => True) →
      validateFieldConfig fieldname cfg = Except.ok ()) ∧
    cloudOutputErrMsg "f" none =
      "Field 'f' has cloudStorage enabled but output is set to 'undefined'. " ++
        "Cloud storage requires output: 'memory' (or omit output option)." := by
  refine ⟨?_, ?_, by decide⟩
  · intro hne
    simp [validateFieldConfig, hc, hne]
  · intro hm hq
    have hq' : qualityInvalid cfg.quality = false := by
      cases h : cfg.quality with
      | none => rfl
      | some q =>
        rw [h] at hq
        simp [qualityInvalid]
        omega
    simp [validateFieldConfig, hc, hm, hq']

/-- Witness for `cloud_requires_memory_output`: a cloud field with omitted
output throws the cloud-output error; with `output: 'memory'` it passes. -/
theorem cloud_requires_memory_output_witness :
    validateFieldConfig "avatar"
        { cloudStorage := true, output := none, outputDir := none,
          quality := none, format := none, keepOriginal := false } =
      Except.error (cloudOutputErrMsg "avatar" none) ∧
    validateFieldConfig "avatar"
        { cloudStorage := true, output := some "memory", outputDir := none,
          quality := none, format := none, keepOriginal := false } =
      Except.ok () := by
  have h1 := (cloud_requires_memory_output "avatar"
    { cloudStorage := true, output := none, outputDir := none,
      quality := none, format := none, keepOriginal := false } rfl).1
    (by decide)
  have h2 := (cloud_requires_memory_output "avatar"
    { cloudStorage := true, output := some "memory", outputDir := none,
      quality := none, format := none, keepOriginal := false } rfl).2.1
    rfl (by decide)
  exact ⟨h1, h2⟩

/-! ## Filename generation (`generateFileName`, src/upfly.js lines 1776-1799)

String primitives are modelled on `List Char` so that every definition is
kernel-reducible.  `parseNameExt` models Node's posix `path.parse`
name/extension split for a separator-free basename; `slugify` models
`.trim().toLowerCase().replace(/[^a-z0-9]+/g,'-').replace(/^-+|-+$/g,'')`;
the random 4-hex suffix `Math.random().toString(16).slice(2,6)` is taken
as a parameter. -/

def isSlugChar (c : Char) : Bool :=
  ('a' ≤ c && c ≤ 'z') || ('0' ≤ c && c ≤ '9')

/-- ASCII lower-casing, the fragment of JS `toLowerCase` relevant here. -/
def charLower (c : Char) : Char :=
  if 'A' ≤ c ∧ c ≤ 'Z' then Char.ofNat (c.toNat + 32) else c

/-- JS `String.prototype.trim`. -/
def trimChars (l : List Char) : List Char :=
  ((l.dropWhile Char.isWhitespace).reverse.dropWhile Char.isWhitespace).reverse

/-- `replace(/[^a-z0-9]+/g, '-')`: each maximal run of non-alphanumeric
characters becomes a single dash.  The boolean tracks whether the previous
character was part of such a run. -/
def slugReplaceAux : Bool → List Char → List Char
  | _, [] => []
  | prevNon, c :: rest =>
    if isSlugChar c then c :: slugReplaceAux false rest
    else if prevNon then slugReplaceAux true rest
    else '-' :: slugReplaceAux true rest

/-- `replace(/^-+|-+$/g, '')`. -/
def trimDashes (l : List Char) : List Char :=
  (((l.dropWhile (fun c => c == '-')).reverse.dropWhile
      (fun c => c == '-'))).reverse

/-- `slugify` (src/upfly.js lines 1765-1772). -/
def slugify (s : String) : String :=
  (trimDashes (slugReplaceAux false ((trimChars s.toList).map charLower))).asString

def dotPositions (l : List Char) : List Nat :=
  (List.range l.length).filter (fun i => l.getD i ' ' == '.')

/-- Node posix `path.parse` name/ext split for a separator-free basename:
no extension when there is no dot, when the only relevant dot is the
leading character, or for the special name `".."`. -/
def parseNameExt (s : String) : String × String :=
  let l := s.toList
  match (dotPositions l).getLast? with
  | none => (s, "")
  | some d =>
    if d = 0 ∨ l = ['.', '.'] then (s, "")
    else ((l.take d).asString, (l.drop d).asString)

/-- `(parsed.ext || '').replace(/^\./, '').toLowerCase()`. -/
def extOf (s : String) : String :=
  match (parseNameExt s).2.toList with
  | '.' :: rest => (rest.map charLower).asString
  | l => (l.map charLower).asString

/-- `file.mimetype && file.mimetype.startsWith('image')`. -/
def mimeIsImage : Option String → Bool
  | some s => strStartsWith s "image"
  | none => false

/-- JS `Array.prototype.join('-')`. -/
def joinDash : List String → String
  | [] => ""
  | [p] => p
  | p :: rest => p ++ "-" ++ joinDash rest

/-- `generateFileName` (src/upfly.js lines 1776-1799); `sfx` stands for the
random hex suffix. -/
def generateFileName (originalname fieldname : Option String)
    (mimetype : Option String) (sfx : String) : String :=
  let orig := match originalname with
              | some s => if s = "" then "file" else s
              | none => "file"
  let base := (parseNameExt orig).1
  let ext := extOf orig
  let slug := slugify base
  let fieldPart : List String :=
    match fieldname with
    | some f =>
      if mimeIsImage mimetype ∧ trimChars f.toList ≠ [] then
        [(trimChars f.toList).asString]
      else []
    | none => []
  let slugPart : List String := if slug ≠ "" then [slug] else []
  joinDash (fieldPart ++ slugPart ++ [sfx]) ++ "." ++ ext

/-- **C10**: a client-supplied name without an extension produces a
filename ending in a trailing `'.'` (empty extension after the final dot),
while a name with an extension produces
`{fieldname-if-image}-{slugified-base}-{suffix}.{lowercased-extension}`
(the suffix being the 4-hex random component). -/
theorem generateFileName_spec (orig fn : String) (mt : Option String)
    (sfx : String) (hne : orig ≠ "") :
    ((parseNameExt orig).2 = "" →
      ∃ base, generateFileName (some orig) (some fn) mt sfx = base ++ ".") ∧
    ((parseNameExt orig).2 ≠ "" → slugify (parseNameExt orig).1 ≠ "" →
      (mimeIsImage mt = true → trimChars fn.toList ≠ [] →
        generateFileName (some orig) (some fn) mt sfx =
          (trimChars fn.toList).asString ++ "-" ++ slugify (parseNameExt orig).1 ++
            "-" ++ sfx ++ "." ++ extOf orig) ∧
      (mimeIsImage mt = false →
        generateFileName (some orig) (some fn) mt sfx =
          slugify (parseNameExt orig).1 ++ "-" ++ sfx ++ "." ++ extOf orig)) := by
  have horig : (if orig = "" then "file" else orig) = orig := if_neg hne
  constructor
  · intro hext
    have hextOf : extOf orig = "" := by
      rw [extOf, hext]
      rfl
    have h1 : generateFileName (some orig) (some fn) mt sfx =
        joinDash
          ((if mimeIsImage mt ∧ trimChars fn.toList ≠ [] then
              [(trimChars fn.toList).asString] else []) ++
            (if slugify (parseNameExt orig).1 ≠ "" then
              [slugify (parseNameExt orig).1] else []) ++ [sfx]) ++ "." := by
      simp only [generateFileName, horig, hextOf]
      rw [String.append_empty]
    exact ⟨_, h1⟩
  · intro hext hslug
    constructor
    · intro himg hfn
      have h1 : generateFileName (some orig) (some fn) mt sfx =
          joinDash [(trimChars fn.toList).asString,
            slugify (parseNameExt orig).1, sfx] ++ "." ++ extOf orig := by
        simp only [generateFileName, horig]
        rw [if_pos ⟨himg, hfn⟩, if_pos hslug]
        rfl
      rw [h1]
      simp [joinDash, String.append_assoc]
    · intro himg
      have h0 : ¬ (mimeIsImage mt = true ∧ trimChars fn.toList ≠ []) := by
        rw [himg]
        simp
      have h1 : generateFileName (some orig) (some fn) mt sfx =
          joinDash [slugify (parseNameExt orig).1, sfx] ++ "." ++ extOf orig := by
        simp only [generateFileName, horig]
        rw [if_neg h0, if_pos hslug]
        rfl
      rw [h1]
      simp [joinDash, String.append_assoc]

/-- Witness for `generateFileName_spec`: `"README"` (no extension) yields a
name with a trailing dot; `"My Photo.JPG"` orig an image field yields
`avatar-my-photo-a1b2.jpg`. -/
theorem generateFileName_spec_witness :
    (∃ base, generateFileName (some "README") (some "doc")
        (some "application/pdf") "ffff" = base ++ ".") ∧
    generateFileName (some "My Photo.JPG") (some "avatar")
        (some "image/jpeg") "a1b2" = "avatar-my-photo-a1b2.jpg" := by
  constructor
  · exact (generateFileName_spec "README" "doc" (some "application/pdf")
      "ffff" (by decide)).1 (by decide)
  · have h := ((generateFileName_spec "My Photo.JPG" "avatar"
      (some "image/jpeg") "a1b2" (by decide)).2 (by decide) (by decide)).1
      (by decide) (by decide)
    rw [h]
    decide

/-! ## Per-file pipeline terminal results (`_handleFile` and
`createHighwayController`, src/upfly.js lines 436-531 and 544-1262)

The asynchronous completion machinery (promise resolution, stream events)
is collapsed into an environment `Env` of observed outcomes; conversion
output bytes and the remote location are opaque environment data.  The
terminal-result records mirror the `controller.result = {...}` assignments
of each branch, and `handleFileCalls` lists the completion-callback
invocations of `_handleFile` — one per control path. -/

def lowerStr (s : String) : String := (s.toList.map charLower).asString

/-- `SHARP_SUPPORTED_FORMATS` (src/upfly.js lines 170-181). -/
def sharpSupportedFormats : List String :=
  ["image/jpeg", "image/jpg", "image/png", "image/webp", "image/gif",
   "image/avif", "image/tiff", "image/svg+xml", "image/heif", "image/heic"]

/-- Whether `needle` occurs as a contiguous sublist of `hay`. -/
def listIsInfix (needle : List Char) : List Char → Bool
  | [] => needle.isEmpty
  | c :: t => needle.isPrefixOf (c :: t) || listIsInfix needle t

/-- JS `String.prototype.includes` (kernel-reducible). -/
def strIncludes (hay needle : String) : Bool :=
  listIsInfix needle.toList hay.toList

/-- `config?.output || 'memory'`-style defaulting (empty string is falsy). -/
def jsOrStr (o : Option String) (dflt : String) : String :=
  if jsTruthyStr o then o.getD dflt else dflt

/-- `path.join(dir, name)` for a plain directory and file name. -/
def pathJoin (dir name : String) : String := dir ++ "/" ++ name

/-- `path.basename` for a posix path. -/
def pathBasename (p : String) : String :=
  ((p.toList.reverse.takeWhile (fun c => c != '/')).reverse).asString

/-- `generateConvertedFileName` (src/upfly.js lines 1803-1807). -/
def generateConvertedFileName (originalFileName newFormat : String) : String :=
  (parseNameExt originalFileName).1 ++ "." ++ lowerStr newFormat

structure FileIn where
  fieldname : String
  originalname : String
  mimetype : Option String
  deriving Repr, DecidableEq

structure Meta where
  isBackupFallback : Bool
  isSkipped : Bool
  isProcessed : Bool
  errors : List (String × String)
  deriving Repr, DecidableEq

def mkMeta (fb sk pr : Bool) (errs : List (String × String)) : Meta :=
  { isBackupFallback := fb, isSkipped := sk, isProcessed := pr, errors := errs }

structure FileResult where
  mimetype : Option String
  buffer : Option (List Nat)
  path : Option String
  filename : Option String
  size : Option Nat
  originalSize : Option Nat
  convertedSize : Option Nat
  cloudUrl : Option String
  errorTop : Option String
  skippedTop : Bool
  processedTop : Option Bool
  metadata : Option Meta
  deriving Repr, DecidableEq

/-- The `{...file}` spread. -/
def baseResult (file : FileIn) : FileResult :=
  { mimetype := file.mimetype, buffer := none, path := none, filename := none,
    size := none, originalSize := none, convertedSize := none,
    cloudUrl := none, errorTop := none, skippedTop := false,
    processedTop := none, metadata := none }

/-- Outcomes and data observed from the environment during one file's
processing: the source stream, the sharp converter, the terminal sink and
the fallback attempt.  `chunks` is the input byte stream (identical on the
main and backup tees). -/
structure Env where
  chunks : List Chunk
  threshold : Nat
  tempPath : String
  sourceOk : Bool
  convOk : Bool
  sinkOk : Bool
  fallbackOk : Bool
  renameOk : Bool
  srcErr : String
  srcErrEinval : Bool
  convErr : String
  sinkErr : String
  fallbackErr : String
  cloudUrl : String
  convSize : Nat
  convBytes : List Nat
  deriving Repr, DecidableEq

/-- The backup tee state after the whole stream, when backup is enabled. -/
def envBackupState (needsBackup : Bool) (env : Env) : BackupState :=
  if needsBackup then backupRun env.threshold env.tempPath env.chunks
  else initBackupState

/-- `backupState.backupBuffer.length > 0 || backupState.backupPath`
(generated temp paths are non-empty strings, so `isSome` models the path's
truthiness). -/
def backupHas (bs : BackupState) : Bool :=
  decide (bs.backupBuffer.length > 0) || bs.backupPath.isSome

/-- `originalFileSize` accumulated by `transform`. -/
def envOrigSize (env : Env) : Nat := env.chunks.flatten.length

structure PipeCtx where
  isCloudUpload : Bool
  outputDisk : Bool
  shouldConvert : Bool
  needsBackup : Bool
  format : String
  normDir : String
  deriving Repr, DecidableEq

/-- Derived per-file context of `createHighwayController`
(src/upfly.js lines 544-553); `normDir` stands for the
`ensureServerRootDir` result. -/
def pipeCtxOf (file : FileIn) (cfg : FieldCfg) (safeFile : Bool)
    (normDir : String) : PipeCtx :=
  { isCloudUpload := cfg.cloudStorage,
    outputDisk := jsOrStr cfg.output "memory" == "disk",
    shouldConvert := mimeIsImage file.mimetype && !cfg.keepOriginal,
    needsBackup := safeFile,
    format := jsOrStr cfg.format "webp",
    normDir := normDir }

/-- Cloud + conversion branch (src/upfly.js lines 702-881): the conversion
pipeline's catch performs the backup fallback upload; otherwise the upload
promise resolves or rejects. -/
def cloudConvertResult (file : FileIn) (ctx : PipeCtx) (env : Env) :
    Option FileResult :=
  let bs := envBackupState ctx.needsBackup env
  if env.convOk then
    if env.sinkOk then
      some { baseResult file with
        cloudUrl := some env.cloudUrl, buffer := none,
        mimetype := some ("image/" ++ lowerStr ctx.format),
        originalSize := some (envOrigSize env),
        convertedSize := some env.convSize }
    else
      some { baseResult file with
        metadata := some (mkMeta false true false [("cloudUpload", env.sinkErr),
            ("message", "Cloud upload failed: " ++ env.sinkErr)] ) }
  else
    if ctx.needsBackup ∧ backupHas bs then
      if env.fallbackOk then
        some { baseResult file with
          cloudUrl := some env.cloudUrl, buffer := none,
          metadata := some (mkMeta true false true [("conversion", env.convErr)] ) }
      else
        some { baseResult file with
          metadata := some (mkMeta false true false [("conversion", env.convErr),
              ("cloudUpload", env.fallbackErr),
              ("message", "Conversion and cloud upload using fallback failed: "
                ++ env.convErr)] ) }
    else
      some { baseResult file with
        metadata := some (mkMeta false true false [("conversion", env.convErr),
            ("message", env.convErr)] ) }

/-- Cloud pass-through branch (src/upfly.js lines 883-955). -/
def cloudRawResult (file : FileIn) (env : Env) : Option FileResult :=
  if env.sinkOk then
    some { baseResult file with
      cloudUrl := some env.cloudUrl, buffer := none,
      size := some (envOrigSize env) }
  else
    some { baseResult file with
      metadata := some (mkMeta false true false [("cloudUpload", env.sinkErr),
          ("message", "Cloud upload failed: " ++ env.sinkErr)] ) }

/-- Disk + conversion branch (src/upfly.js lines 966-1112): pipeline catch
with disk backup fallback, or the `finish` handler with rename and the
`originalFileSize > 0` guard (when the guard fails no result is ever
assigned). -/
def diskConvertResult (file : FileIn) (ctx : PipeCtx) (env : Env) :
    Option FileResult :=
  let bs := envBackupState ctx.needsBackup env
  let outputPath := pathJoin ctx.normDir file.originalname
  if env.convOk then
    if env.renameOk then
      if 0 < envOrigSize env then
        some { baseResult file with
          buffer := none,
          path := some (pathJoin ctx.normDir
            (generateConvertedFileName file.originalname ctx.format)),
          filename := some (generateConvertedFileName file.originalname ctx.format),
          mimetype := some ("image/" ++ lowerStr ctx.format),
          originalSize := some (envOrigSize env),
          convertedSize := some env.convSize }
      else none
    else
      if 0 < envOrigSize env then
        some { baseResult file with
          buffer := none,
          path := some (pathBasename outputPath),
          mimetype := some ("image/" ++ lowerStr ctx.format),
          originalSize := some (envOrigSize env),
          convertedSize := some env.convSize }
      else none
  else
    if ctx.needsBackup ∧ backupHas bs then
      if env.fallbackOk then
        some { baseResult file with
          path := some outputPath, buffer := none,
          size := some bs.backupTotalSize,
          originalSize := some (envOrigSize env),
          metadata := some (mkMeta true false true [("pipeline", env.convErr)] ) }
      else
        some { baseResult file with
          metadata := some (mkMeta false true false [("pipeline", env.convErr),
              ("fallback", env.fallbackErr),
              ("message", env.convErr)] ) }
    else
      some { baseResult file with
        metadata := some (mkMeta false true false [("pipeline", env.convErr),
            ("message", env.convErr)] ) }

/-- Disk pass-through branch (src/upfly.js lines 1114-1151). -/
def diskRawResult (file : FileIn) (ctx : PipeCtx) (env : Env) :
    Option FileResult :=
  let outputPath := pathJoin ctx.normDir file.originalname
  if env.sinkOk then
    some { baseResult file with
      buffer := none, path := some outputPath,
      filename := some (pathBasename outputPath),
      size := some (envOrigSize env) }
  else
    some { baseResult file with
      metadata := some (mkMeta false true false [("diskWrite", env.sinkErr),
          ("message", env.sinkErr)] ) }

/-- Memory + conversion branch (src/upfly.js lines 1157-1258). -/
def memConvertResult (file : FileIn) (ctx : PipeCtx) (env : Env) :
    Option FileResult :=
  let bs := envBackupState ctx.needsBackup env
  if env.convOk then
    some { baseResult file with
      buffer := some env.convBytes,
      mimetype := some ("image/" ++ lowerStr ctx.format),
      size := some env.convSize,
      originalSize := some (envOrigSize env) }
  else
    if ctx.needsBackup ∧ backupHas bs then
      if env.fallbackOk then
        some { baseResult file with
          buffer := some (backupReadBack bs),
          size := some bs.backupTotalSize,
          originalSize := some (envOrigSize env),
          metadata := some (mkMeta true false true [("conversion", env.convErr)] ) }
      else
        some { baseResult file with
          metadata := some (mkMeta false true false [("conversion", env.convErr),
              ("message", env.convErr)] ) }
    else
      some { baseResult file with
        metadata := some (mkMeta false true false [("conversion", env.convErr),
            ("message", env.convErr)] ) }

/-- Memory pass-through: `flush` assigns the result directly
(src/upfly.js lines 660-665), reusing the transform-routing model. -/
def memRawResult (file : FileIn) (ctx : PipeCtx) (env : Env) :
    Option FileResult :=
  let st := ctrlRun
    { isCloudUpload := ctx.isCloudUpload, outputDisk := ctx.outputDisk,
      shouldConvert := ctx.shouldConvert } env.chunks
  some { baseResult file with
    buffer := some (bufferConcat st.memoryBuffer st.totalSize),
    size := some st.totalSize }

/-- The terminal `controller.result` of `createHighwayController`, or
`none` when no branch ever assigns it. -/
def resultOf (file : FileIn) (ctx : PipeCtx) (env : Env) : Option FileResult :=
  if ctx.isCloudUpload then
    if ctx.shouldConvert then cloudConvertResult file ctx env
    else cloudRawResult file env
  else if ctx.outputDisk then
    if ctx.shouldConvert then diskConvertResult file ctx env
    else diskRawResult file ctx env
  else
    if ctx.shouldConvert then memConvertResult file ctx env
    else memRawResult file ctx env

inductive CbCall where
  | err : String → CbCall
  | ok : Option FileResult → CbCall
  deriving Repr, DecidableEq

/-- Early-skip record for unsupported image formats
(src/upfly.js lines 468-475). -/
def earlySkipResult (file : FileIn) : FileResult :=
  { baseResult file with
    errorTop := some ("Unsupported image format for conversion: " ++
      file.mimetype.getD "undefined" ++
      ". Supported formats: JPEG, PNG, WebP, GIF, AVIF, TIFF, SVG, HEIF."),
    skippedTop := true,
    processedTop := some false }

/-- Skip record of `_handleFile`'s catch for sharp "unsupported format"
errors (src/upfly.js lines 501-515). -/
def srcSkipResult (file : FileIn) (msg : String) : FileResult :=
  { baseResult file with
    errorTop := some msg,
    skippedTop := true,
    processedTop := some false }

/-- The message test of `_handleFile`'s catch
(src/upfly.js lines 501-507). -/
def matchesUnsupported (msg : String) (codeEinval : Bool) : Bool :=
  strIncludes msg "Input file contains unsupported image format" ||
  strIncludes msg "Input buffer contains unsupported image format" ||
  strIncludes msg "unsupported image format" ||
  strIncludes msg "Input file is missing" ||
  codeEinval

/-- The early short-circuit condition of `_handleFile`
(src/upfly.js line 468). -/
def earlySkipCond (file : FileIn) (cfg : FieldCfg) : Bool :=
  mimeIsImage file.mimetype && !cfg.keepOriginal &&
    !(sharpSupportedFormats.contains (file.mimetype.getD ""))

/-- The completion-callback invocations of one `_handleFile` call
(src/upfly.js lines 436-526), one entry per executed `cb(...)` site. -/
def handleFileCalls (file : FileIn) (cfg : FieldCfg) (hasConfig safeFile : Bool)
    (normDir : String) (env : Env) : List CbCall :=
  if hasConfig = false then
    [CbCall.err ("No configuration found for field: " ++ file.fieldname)]
  else if earlySkipCond file cfg then
    [CbCall.ok (some (earlySkipResult file))]
  else if env.sourceOk then
    [CbCall.ok (resultOf file (pipeCtxOf file cfg safeFile normDir) env)]
  else if matchesUnsupported env.srcErr env.srcErrEinval then
    [CbCall.ok (some (srcSkipResult file env.srcErr))]
  else
    [CbCall.err env.srcErr]

/-- Whether `_handleFile` reached the pipeline (constructed the controller
and streamed the file into it). -/
def handleFileRanPipeline (file : FileIn) (cfg : FieldCfg)
    (hasConfig : Bool) : Bool :=
  hasConfig && !(earlySkipCond file cfg)

/-- The argument the wrapping middleware passes to `next` for this file's
callback: multer turns `cb(err)` into a request-level `next(uploadErr)`;
`cb(null, info)` lets the request proceed (src/upfly.js lines 408-428). -/
def nextErrOf : CbCall → Option String
  | CbCall.err e => some e
  | CbCall.ok _ => none

/-- Terminal classification of a result record from its flags. -/
def isFailedR (r : FileResult) : Bool :=
  r.skippedTop || (match r.metadata with
                   | some m => m.isSkipped
                   | none => false)

def isBackupSubR (r : FileResult) : Bool :=
  match r.metadata with
  | some m => m.isBackupFallback
  | none => false

def isSucceededR (r : FileResult) : Bool :=
  !(isFailedR r) && !(isBackupSubR r)

def classCount (r : FileResult) : Nat :=
  (if isSucceededR r then 1 else 0) + (if isBackupSubR r then 1 else 0) +
    (if isFailedR r then 1 else 0)

def resultErrors (r : FileResult) : List (String × String) :=
  (match r.errorTop with
   | some e => [("error", e)]
   | none => []) ++
  (match r.metadata with
   | some m => m.errors
   | none => [])

theorem resultOf_total (file : FileIn) (ctx : PipeCtx) (env : Env)
    (hsz : env.convOk = true → 0 < envOrigSize env) :
    ∃ r, resultOf file ctx env = some r := by
  simp only [resultOf, cloudConvertResult, cloudRawResult, diskConvertResult,
    diskRawResult, memConvertResult, memRawResult]
  split_ifs <;>
    first
      | exact ⟨_, rfl⟩
      | (exact absurd (hsz (by assumption)) (by assumption))

theorem resultOf_classCount (file : FileIn) (ctx : PipeCtx) (env : Env)
    (r : FileResult) (h : resultOf file ctx env = some r) :
    classCount r = 1 := by
  simp only [resultOf, cloudConvertResult, cloudRawResult, diskConvertResult,
    diskRawResult, memConvertResult, memRawResult] at h
  split_ifs at h <;>
    first
      | (injection h with h
         subst h
         simp [classCount, isSucceededR, isFailedR, isBackupSubR, baseResult,
           mkMeta])
      | (cases h)

/-- **C1**: for every uploaded file handled by the pipeline, the completion
callback is invoked exactly once, and whenever it carries a result record
the record is classified as exactly one of succeeded / backup-substituted /
failed; with the pipeline completing normally a result record is always
present (a successful conversion implies a non-empty input, since sharp
errors on empty input — hence the `originalFileSize > 0` guard of the disk
branch cannot drop the result). -/
theorem pipeline_single_completion (file : FileIn) (cfg : FieldCfg)
    (hasConfig safeFile : Bool) (normDir : String) (env : Env)
    (hsz : env.convOk = true → 0 < envOrigSize env) :
    (handleFileCalls file cfg hasConfig safeFile normDir env).length = 1 ∧
    (env.sourceOk = true → hasConfig = true →
      ∃ r, handleFileCalls file cfg hasConfig safeFile normDir env =
        [CbCall.ok (some r)]) ∧
    (∀ r, CbCall.ok (some r) ∈
        handleFileCalls file cfg hasConfig safeFile normDir env →
      classCount r = 1) := by
  refine ⟨?_, ?_, ?_⟩
  · simp only [handleFileCalls]
    split_ifs <;> rfl
  · intro hsrc hcfg
    by_cases hes : earlySkipCond file cfg = true
    · exact ⟨earlySkipResult file, by simp [handleFileCalls, hcfg, hes]⟩
    · obtain ⟨r, hr⟩ := resultOf_total file (pipeCtxOf file cfg safeFile normDir)
        env hsz
      exact ⟨r, by simp [handleFileCalls, hcfg, hes, hsrc, hr]⟩
  · intro r hr
    simp only [handleFileCalls] at hr
    split_ifs at hr <;> simp only [List.mem_singleton] at hr
    · cases hr
    · injection hr with hr
      injection hr with hr
      subst hr
      simp [classCount, isSucceededR, isFailedR, isBackupSubR,
        earlySkipResult, baseResult]
    · injection hr with hr
      exact resultOf_classCount file _ env r hr.symm
    · injection hr with hr
      injection hr with hr
      subst hr
      simp [classCount, isSucceededR, isFailedR, isBackupSubR,
        srcSkipResult, baseResult]
    · cases hr

def wFile : FileIn :=
  { fieldname := "doc", originalname := "a.pdf", mimetype := some "application/pdf" }

def wCfg : FieldCfg :=
  { cloudStorage := false, output := some "memory", outputDir := none,
    quality := none, format := none, keepOriginal := false }

def wEnv : Env :=
  { chunks := [[1, 2]], threshold := 5, tempPath := "t", sourceOk := true,
    convOk := false, sinkOk := true, fallbackOk := true, renameOk := true,
    srcErr := "", srcErrEinval := false, convErr := "", sinkErr := "",
    fallbackErr := "", cloudUrl := "", convSize := 0, convBytes := [] }

/-- Witness for `pipeline_single_completion`: a pass-through PDF to memory
completes with exactly one callback carrying one result. -/
theorem pipeline_single_completion_witness :
    (handleFileCalls wFile wCfg true false "up" wEnv).length = 1 ∧
    (∃ r, handleFileCalls wFile wCfg true false "up" wEnv =
      [CbCall.ok (some r)]) := by
  have h := pipeline_single_completion wFile wCfg true false "up" wEnv
    (by intro hc; cases hc)
  exact ⟨h.1, h.2.1 rfl rfl⟩

def cexFile : FileIn :=
  { fieldname := "pic", originalname := "x.bmp", mimetype := some "image/bmp" }

def cexCfg : FieldCfg :=
  { cloudStorage := false, output := some "memory", outputDir := none,
    quality := none, format := none, keepOriginal := false }

/-- **C2 counterexample**: a declared `image/bmp` file (an image type
outside `SHARP_SUPPORTED_FORMATS`) with `keepOriginal: false` is *not*
delivered to the configured sink via pass-through: `_handleFile` never
constructs the pipeline for it, and the completion callback carries a
skipped record with an error message — falsifying "delivers the file
unmodified ... rather than producing an error". -/
theorem unsupported_image_pass_through_cex :
    handleFileRanPipeline cexFile cexCfg true = false ∧
    handleFileCalls cexFile cexCfg true false "up" wEnv =
      [CbCall.ok (some (earlySkipResult cexFile))] ∧
    (earlySkipResult cexFile).skippedTop = true ∧
    (earlySkipResult cexFile).errorTop ≠ none := by
  decide

/-- **C2 (amended)**: a declared image type outside the converter's
supported set with `keepOriginal: false` short-circuits before any
processing: the completion callback receives (without a request-level
error) a skipped result carrying an "Unsupported image format" error; no
conversion is attempted and the file never reaches the configured sink. -/
theorem unsupported_image_early_skip (file : FileIn) (cfg : FieldCfg)
    (safeFile : Bool) (normDir : String) (env : Env)
    (himg : mimeIsImage file.mimetype = true)
    (hko : cfg.keepOriginal = false)
    (hsup : sharpSupportedFormats.contains (file.mimetype.getD "") = false) :
    handleFileCalls file cfg true safeFile normDir env =
      [CbCall.ok (some (earlySkipResult file))] ∧
    handleFileRanPipeline file cfg true = false ∧
    nextErrOf (CbCall.ok (some (earlySkipResult file))) = none ∧
    (earlySkipResult file).skippedTop = true ∧
    (earlySkipResult file).processedTop = some false ∧
    (earlySkipResult file).errorTop =
      some ("Unsupported image format for conversion: " ++
        file.mimetype.getD "undefined" ++
        ". Supported formats: JPEG, PNG, WebP, GIF, AVIF, TIFF, SVG, HEIF.") := by
  have hcond : earlySkipCond file cfg = true := by
    have hsup' : file.mimetype.getD "" ∉ sharpSupportedFormats := by
      simpa using hsup
    simp [earlySkipCond, himg, hko, hsup']
  refine ⟨?_, ?_, rfl, rfl, rfl, rfl⟩
  · simp [handleFileCalls, hcond]
  · simp [handleFileRanPipeline, hcond]

/-- Witness for `unsupported_image_early_skip` at the `image/bmp` input. -/
theorem unsupported_image_early_skip_witness :
    handleFileCalls cexFile cexCfg true true "up" wEnv =
      [CbCall.ok (some (earlySkipResult cexFile))] ∧
    handleFileRanPipeline cexFile cexCfg true = false :=
  ⟨(unsupported_image_early_skip cexFile cexCfg true "up" wEnv
      (by decide) (by decide) (by decide)).1,
   (unsupported_image_early_skip cexFile cexCfg true "up" wEnv
      (by decide) (by decide) (by decide)).2.1⟩

/-- Whether the file's primary processing path failed (converter failure
or terminal-sink failure), per destination branch. -/
def primaryFailed (ctx : PipeCtx) (env : Env) : Bool :=
  if ctx.isCloudUpload then
    (ctx.shouldConvert && !env.convOk) || !env.sinkOk
  else if ctx.outputDisk then
    (if ctx.shouldConvert then !env.convOk else !env.sinkOk)
  else
    ctx.shouldConvert && !env.convOk

theorem resultOf_failure_recorded (file : FileIn) (ctx : PipeCtx) (env : Env)
    (hfail : primaryFailed ctx env = true) :
    ∃ r, resultOf file ctx env = some r ∧ resultErrors r ≠ [] := by
  simp only [primaryFailed] at hfail
  simp only [resultOf, cloudConvertResult, cloudRawResult, diskConvertResult,
    diskRawResult, memConvertResult, memRawResult]
  split_ifs <;>
    first
      | (refine ⟨_, rfl, ?_⟩
         simp [resultErrors, mkMeta, baseResult]
         done)
      | (exfalso
         simp_all
         done)

/-- **C3**: a single file's conversion failure or sink failure — including
a failed backup fallback — is never surfaced as a request-level error: the
completion callback is invoked without an error (so the middleware calls
`next()` with no argument and the request proceeds), and the failure is
captured in the file's result record as a non-empty structured error
list. -/
theorem per_file_failure_never_reaches_next (file : FileIn) (cfg : FieldCfg)
    (safeFile : Bool) (normDir : String) (env : Env)
    (hskip : earlySkipCond file cfg = false)
    (hsrc : env.sourceOk = true)
    (hfail : primaryFailed (pipeCtxOf file cfg safeFile normDir) env = true) :
    ∃ r, handleFileCalls file cfg true safeFile normDir env =
        [CbCall.ok (some r)] ∧
      nextErrOf (CbCall.ok (some r)) = none ∧
      resultErrors r ≠ [] := by
  obtain ⟨r, hr, herr⟩ :=
    resultOf_failure_recorded file (pipeCtxOf file cfg safeFile normDir) env hfail
  refine ⟨r, ?_, rfl, herr⟩
  simp [handleFileCalls, hskip, hsrc, hr]

/-- Witness for `per_file_failure_never_reaches_next`: a failing image
conversion to memory (no backup) yields a single error-free callback with
a recorded conversion error. -/
theorem per_file_failure_never_reaches_next_witness :
    ∃ r, handleFileCalls
        { fieldname := "pic", originalname := "a.png", mimetype := some "image/png" }
        wCfg true false "up" wEnv = [CbCall.ok (some r)] ∧
      nextErrOf (CbCall.ok (some r)) = none ∧
      resultErrors r ≠ [] :=
  per_file_failure_never_reaches_next
    { fieldname := "pic", originalname := "a.png", mimetype := some "image/png" }
    wCfg false "up" wEnv (by decide) (by decide) (by decide)

/-! ## Disk backup fallback (claim C7; `handleDiskBackupFallback`,
src/upfly.js lines 1278-1295, and the disk pipeline catch, lines 974-1045) -/

/-- `handleDiskBackupFallback`: write the backup content to `outputPath`
(streaming from the temp file if spilled, otherwise
`Buffer.concat(backupBuffer, size)`), delete the temp file if one exists,
and return `{path, size}`.  Components: the returned record, the bytes
written to `outputPath`, and whether `cleanupTempFile` ran. -/
def handleDiskBackupFallback (backupPath : Option String)
    (tempContent : List Nat) (backupBuffer : List Chunk)
    (outputPath : String) (size : Nat) :
    (String × Nat) × List Nat × Bool :=
  match backupPath with
  | some _ => ((outputPath, size), tempContent, true)
  | none => ((outputPath, size), bufferConcat backupBuffer size, false)

theorem backupRun_path_buffer (threshold : Nat) (tempPath : String)
    (chunks : List Chunk) :
    ((backupRun threshold tempPath chunks).useMemoryBackup = true →
      (backupRun threshold tempPath chunks).backupBuffer = chunks ∧
      (backupRun threshold tempPath chunks).backupPath = none) ∧
    ((backupRun threshold tempPath chunks).useMemoryBackup = false →
      (backupRun threshold tempPath chunks).backupPath = some tempPath) := by
  have key : ∀ (cs : List Chunk) (st : BackupState),
      (st.useMemoryBackup = false →
        (cs.foldl (backupStep threshold tempPath) st).useMemoryBackup = false ∧
        (cs.foldl (backupStep threshold tempPath) st).backupPath = st.backupPath) ∧
      (st.useMemoryBackup = true →
        ((cs.foldl (backupStep threshold tempPath) st).useMemoryBackup = true →
          (cs.foldl (backupStep threshold tempPath) st).backupBuffer =
            st.backupBuffer ++ cs ∧
          (cs.foldl (backupStep threshold tempPath) st).backupPath =
            st.backupPath) ∧
        ((cs.foldl (backupStep threshold tempPath) st).useMemoryBackup = false →
          (cs.foldl (backupStep threshold tempPath) st).backupPath =
            some tempPath)) := by
    intro cs
    induction cs with
    | nil =>
      intro st
      refine ⟨?_, ?_⟩
      · intro h
        exact ⟨h, rfl⟩
      · intro h
        refine ⟨fun _ => ⟨by simp, rfl⟩, fun hf => ?_⟩
        rw [List.foldl_nil, h] at hf
        cases hf
    | cons c cs ih =>
      intro st
      obtain ⟨ihf, ihm⟩ := ih (backupStep threshold tempPath st c)
      by_cases hm : st.useMemoryBackup = true
      · by_cases hspill : st.backupTotalSize + c.length > threshold
        · have hstep : backupStep threshold tempPath st c =
              { backupBuffer := [],
                backupPath := some tempPath,
                fileContent := st.fileContent ++ st.backupBuffer.flatten ++ c,
                backupTotalSize := st.backupTotalSize + c.length,
                useMemoryBackup := false } := by
            simp [backupStep, hm, hspill]
          obtain ⟨hf1, hf2⟩ := ihf (by rw [hstep])
          refine ⟨fun hfalse => ?_, fun _ => ⟨fun htrue => ?_, fun _ => ?_⟩⟩
          · rw [hm] at hfalse; cases hfalse
          · rw [List.foldl_cons] at htrue
            rw [htrue] at hf1
            cases hf1
          · rw [List.foldl_cons, hf2, hstep]
        · have hstep : backupStep threshold tempPath st c =
              { st with backupBuffer := st.backupBuffer ++ [c],
                        backupTotalSize := st.backupTotalSize + c.length } := by
            simp [backupStep, hm, hspill]
          obtain ⟨ihm1, ihm2⟩ := ihm (by rw [hstep]; exact hm)
          refine ⟨fun hfalse => ?_, fun _ => ⟨fun htrue => ?_, fun hfin => ?_⟩⟩
          · rw [hm] at hfalse; cases hfalse
          · rw [List.foldl_cons] at htrue ⊢
            obtain ⟨hb, hp⟩ := ihm1 htrue
            rw [hb, hp, hstep]
            simp
          · rw [List.foldl_cons] at hfin ⊢
            exact ihm2 hfin
      · have hm' : st.useMemoryBackup = false := by
          cases h : st.useMemoryBackup
          · rfl
          · exact absurd h hm
        have hstep : backupStep threshold tempPath st c =
            { st with fileContent := st.fileContent ++ c,
                      backupTotalSize := st.backupTotalSize + c.length } := by
          simp [backupStep, hm']
        obtain ⟨hf1, hf2⟩ := ihf (by rw [hstep]; exact hm')
        refine ⟨fun _ => ?_, fun htrue => ?_⟩
        · rw [List.foldl_cons]
          refine ⟨hf1, ?_⟩
          rw [hf2, hstep]
        · rw [hm'] at htrue; cases htrue
  obtain ⟨kf, km⟩ := key chunks initBackupState
  constructor
  · intro hmem
    obtain ⟨hb, hp⟩ := (km rfl).1 hmem
    refine ⟨?_, ?_⟩
    · simpa [initBackupState] using hb
    · simpa [initBackupState] using hp
  · intro hfin
    exact (km rfl).2 hfin

theorem backupRun_hasContent (threshold : Nat) (tempPath : String)
    (chunks : List Chunk) (h : chunks ≠ []) :
    backupHas (backupRun threshold tempPath chunks) = true := by
  obtain ⟨hmem, hspill⟩ := backupRun_path_buffer threshold tempPath chunks
  by_cases hm : (backupRun threshold tempPath chunks).useMemoryBackup = true
  · obtain ⟨hb, -⟩ := hmem hm
    have : (backupRun threshold tempPath chunks).backupBuffer.length > 0 := by
      rw [hb]
      cases chunks with
      | nil => exact absurd rfl h
      | cons a l => simp
    simp [backupHas, this]
  · have hm' : (backupRun threshold tempPath chunks).useMemoryBackup = false := by
      cases hh : (backupRun threshold tempPath chunks).useMemoryBackup
      · rfl
      · exact absurd hh hm
    rw [backupHas, hspill hm']
    simp

/-- **C7**: for a disk-output field with backup enabled, when the
conversion pipeline fails while backup content exists (any non-empty
input), the terminal result is a backup substitution: the bytes written to
disk are exactly the original unconverted input, at the path built from
the original-format filename (not the converted rename target); the result
is flagged `isBackupFallback` with an error record naming the failed
`pipeline` stage; the original content type is kept; and the temp backup
file used for the retry, when one was spilled, is deleted afterward. -/
theorem disk_backup_substitution (file : FileIn) (cfg : FieldCfg)
    (normDir : String) (env : Env)
    (hcloud : cfg.cloudStorage = false)
    (hout : cfg.output = some "disk")
    (himg : mimeIsImage file.mimetype = true)
    (hko : cfg.keepOriginal = false)
    (hconv : env.convOk = false)
    (hfb : env.fallbackOk = true)
    (hchunks : env.chunks ≠ []) :
    ∃ r, resultOf file (pipeCtxOf file cfg true normDir) env = some r ∧
      isBackupSubR r = true ∧ isFailedR r = false ∧
      r.path = some (pathJoin normDir file.originalname) ∧
      r.mimetype = file.mimetype ∧
      r.size = some env.chunks.flatten.length ∧
      r.originalSize = some env.chunks.flatten.length ∧
      r.metadata = some (mkMeta true false true [("pipeline", env.convErr)]) ∧
      (handleDiskBackupFallback
          (backupRun env.threshold env.tempPath env.chunks).backupPath
          (backupRun env.threshold env.tempPath env.chunks).fileContent
          (backupRun env.threshold env.tempPath env.chunks).backupBuffer
          (pathJoin normDir file.originalname)
          (backupRun env.threshold env.tempPath env.chunks).backupTotalSize).2.1 =
        env.chunks.flatten ∧
      ((backupRun env.threshold env.tempPath env.chunks).backupPath.isSome = true →
        (handleDiskBackupFallback
            (backupRun env.threshold env.tempPath env.chunks).backupPath
            (backupRun env.threshold env.tempPath env.chunks).fileContent
            (backupRun env.threshold env.tempPath env.chunks).backupBuffer
            (pathJoin normDir file.originalname)
            (backupRun env.threshold env.tempPath env.chunks).backupTotalSize).2.2 =
          true) := by
  obtain ⟨hTot, hRead, hMem⟩ :=
    backupRun_invariant env.threshold env.tempPath env.chunks
  obtain ⟨hMemBuf, hSpillPath⟩ :=
    backupRun_path_buffer env.threshold env.tempPath env.chunks
  have hHas : backupHas (backupRun env.threshold env.tempPath env.chunks) = true :=
    backupRun_hasContent env.threshold env.tempPath env.chunks hchunks
  have hctx : pipeCtxOf file cfg true normDir =
      { isCloudUpload := false, outputDisk := true, shouldConvert := true,
        needsBackup := true, format := jsOrStr cfg.format "webp",
        normDir := normDir } := by
    simp [pipeCtxOf, hcloud, hout, himg, hko, jsOrStr, jsTruthyStr]
  have hbsEnv : envBackupState true env =
      backupRun env.threshold env.tempPath env.chunks := by
    simp [envBackupState]
  have hres : resultOf file (pipeCtxOf file cfg true normDir) env =
      some { baseResult file with
        path := some (pathJoin normDir file.originalname), buffer := none,
        size := some (backupRun env.threshold env.tempPath env.chunks).backupTotalSize,
        originalSize := some (envOrigSize env),
        metadata := some (mkMeta true false true
          [("pipeline", env.convErr)]) } := by
    rw [hctx]
    simp only [resultOf, diskConvertResult, hbsEnv]
    simp [hconv, hHas, hfb]
  refine ⟨_, hres, by simp [isBackupSubR, mkMeta],
    by simp [isFailedR, baseResult, mkMeta], by simp, by simp [baseResult],
    ?_, rfl, by simp [mkMeta], ?_, ?_⟩
  · show some (backupRun env.threshold env.tempPath env.chunks).backupTotalSize =
      some env.chunks.flatten.length
    rw [hTot]
  · cases hp : (backupRun env.threshold env.tempPath env.chunks).backupPath with
    | some p =>
      have hm : (backupRun env.threshold env.tempPath env.chunks).useMemoryBackup
          = false := by
        cases hmm : (backupRun env.threshold env.tempPath env.chunks).useMemoryBackup
        · rfl
        · obtain ⟨-, hnone⟩ := hMemBuf hmm
          rw [hnone] at hp
          cases hp
      have hfc : (backupRun env.threshold env.tempPath env.chunks).fileContent =
          env.chunks.flatten := by
        unfold backupReadBack at hRead
        rw [hm] at hRead
        simpa using hRead
      exact hfc
    | none =>
      have hm : (backupRun env.threshold env.tempPath env.chunks).useMemoryBackup
          = true := by
        cases hmm : (backupRun env.threshold env.tempPath env.chunks).useMemoryBackup
        · exact absurd (hSpillPath hmm) (by rw [hp]; intro hh; cases hh)
        · rfl
      obtain ⟨hbuf, -⟩ := hMemBuf hm
      show bufferConcat (backupRun env.threshold env.tempPath env.chunks).backupBuffer
          (backupRun env.threshold env.tempPath env.chunks).backupTotalSize =
        env.chunks.flatten
      rw [hbuf, hTot]
      exact bufferConcat_flatten_length env.chunks
  · intro hpSome
    cases hpp : (backupRun env.threshold env.tempPath env.chunks).backupPath with
    | some p =>
      rfl
    | none =>
      rw [hpp] at hpSome
      cases hpSome

def c7File : FileIn :=
  { fieldname := "pic", originalname := "b.png", mimetype := some "image/png" }

def c7Cfg : FieldCfg :=
  { cloudStorage := false, output := some "disk", outputDir := none,
    quality := none, format := none, keepOriginal := false }

def c7Env : Env :=
  { chunks := [[7, 8], [9]], threshold := 1, tempPath := "b.tmp",
    sourceOk := true, convOk := false, sinkOk := true, fallbackOk := true,
    renameOk := true, srcErr := "", srcErrEinval := false,
    convErr := "boom", sinkErr := "", fallbackErr := "", cloudUrl := "",
    convSize := 0, convBytes := [] }

/-- Witness for `disk_backup_substitution`: a 3-byte input crossing a
1-byte spill threshold with a failing converter is substituted from the
backup. -/
theorem disk_backup_substitution_witness :
    ∃ r, resultOf c7File (pipeCtxOf c7File c7Cfg true "up") c7Env = some r ∧
      isBackupSubR r = true ∧ isFailedR r = false ∧
      r.path = some (pathJoin "up" "b.png") := by
  obtain ⟨r, h1, h2, h3, h4, -⟩ :=
    disk_backup_substitution c7File c7Cfg "up" c7Env
      (by decide) (by decide) (by decide) (by decide) (by decide) (by decide)
      (by decide)
  exact ⟨r, h1, h2, h3, h4⟩

end Upfly
